import Mathlib

/-!
Verification of the editable-image state machine of `image_processor.py`
(class `ImageProcessor`): the history (undo/redo) mechanics and the
geometric / colour transformation operators.

Pixel buffers are modelled as dimension-indexed matrices of RGB triples
(numpy arrays of shape h × w × 3 with 8-bit samples; sample values are
plain naturals, since none of the verified operators overflows 8 bits on
8-bit input).  The OpenCV primitives the source calls are modelled from
their documented integer behaviour:

* `cv2.flip` with flip codes 1 (horizontal) and 0 (vertical) mirrors
  columns resp. rows;
* `cv2.rotate` with `ROTATE_90_COUNTERCLOCKWISE`, `ROTATE_180`,
  `ROTATE_90_CLOCKWISE` permutes indices accordingly;
* `cv2.cvtColor` RGB→GRAY for 8-bit input uses the fixed-point
  coefficients R:4899, G:9617, B:1868 with descale shift 14 and rounding
  term 8192 (the coefficients sum to 2^14 exactly); GRAY→RGB replicates
  the luminance over the three channels;
* `cv2.resize` raises `cv2.error` when the target size is empty
  (width ≤ 0 or height ≤ 0).
-/

namespace ImageEditor

/-- One pixel: an RGB triple of 8-bit samples (modelled as naturals). -/
abbrev Pix := ℕ × ℕ × ℕ

/-- A pixel buffer: height, width, and the pixel grid (row index first,
matching numpy's `image[y][x]` layout). -/
abbrev PB := Σ h : ℕ, Σ w : ℕ, Fin h → Fin w → Pix

/-- Model of `cv2.flip(img, 1)`: horizontal flip, mirroring columns. -/
def cv2_flip_h (b : PB) : PB :=
  ⟨b.1, b.2.1, fun i j => b.2.2 i j.rev⟩

/-- Model of `cv2.flip(img, 0)`: vertical flip, mirroring rows. -/
def cv2_flip_v (b : PB) : PB :=
  ⟨b.1, b.2.1, fun i j => b.2.2 i.rev j⟩

/-- Model of `cv2.rotate(img, cv2.ROTATE_90_COUNTERCLOCKWISE)`: the output is
w × h and output pixel (i, j) is input pixel (j, w-1-i) — the rightmost
input column becomes the top output row. -/
def cv2_rotate_ccw (b : PB) : PB :=
  ⟨b.2.1, b.1, fun i j => b.2.2 j i.rev⟩

/-- Model of `cv2.rotate(img, cv2.ROTATE_180)`: both indices reversed. -/
def cv2_rotate_180 (b : PB) : PB :=
  ⟨b.1, b.2.1, fun i j => b.2.2 i.rev j.rev⟩

/-- Model of `cv2.rotate(img, cv2.ROTATE_90_CLOCKWISE)`: the output is w × h and
output pixel (i, j) is input pixel (h-1-j, i). -/
def cv2_rotate_cw (b : PB) : PB :=
  ⟨b.2.1, b.1, fun i j => b.2.2 j.rev i⟩

/-- The 8-bit RGB→luminance conversion as computed by OpenCV's fixed-point `cvtColor`
RGB2GRAY path: `(R*4899 + G*9617 + B*1868 + 8192) >> 14`. -/
def gray8 (p : Pix) : ℕ :=
  (4899 * p.1 + 9617 * p.2.1 + 1868 * p.2.2 + 8192) / 16384

/-- Composition of `cvtColor(·, RGB2GRAY)` followed by `cvtColor(·, GRAY2RGB)` as in
`convert_grayscale`: each pixel is replaced by its luminance replicated
over the three channels. -/
def rgb2gray2rgb (b : PB) : PB :=
  ⟨b.1, b.2.1, fun i j => (gray8 (b.2.2 i j), gray8 (b.2.2 i j), gray8 (b.2.2 i j))⟩

/-- The kernel-size coercion of `apply_blur` (line 98 of the source):
`max(1, intensity if intensity % 2 == 1 else intensity + 1)`. -/
def blur_kernel_size (intensity : Int) : Int :=
  max 1 (if intensity % 2 = 1 then intensity else intensity + 1)

/-- Modelled from the spec: `cv2.GaussianBlur` is not part of src/ and its
pixel math is floating point, which is outside this integer model; the
claims depend only on the kernel size passed to it, so the smoothing is
modelled as leaving the buffer unchanged while the kernel-size argument is
kept explicit at the call site. -/
def cv2_GaussianBlur (b : PB) (_ksize : Int) : PB := b

/-- Modelled from the spec: `cv2.resize` (not in src/) raises `cv2.error`
when the requested size is empty (width ≤ 0 or height ≤ 0), modelled as
`none`; the pixel content of a successful resize is floating-point
interpolation, on which no claim depends, so it is modelled as clamped
nearest-neighbour sampling. -/
def cv2_resize (b : PB) (width height : Int) : Option PB :=
  if width ≤ 0 ∨ height ≤ 0 then none
  else some ⟨height.toNat, width.toNat, fun i j =>
    if hh : i.val * b.1 / height.toNat < b.1 then
      if hw : j.val * b.2.1 / width.toNat < b.2.1 then
        b.2.2 ⟨i.val * b.1 / height.toNat, hh⟩ ⟨j.val * b.2.1 / width.toNat, hw⟩
      else (0, 0, 0)
    else (0, 0, 0)⟩

/-- Python's `str.lower()` (ASCII, which is all the source compares
against): lowercase every character. -/
def str_lower (s : String) : String := ⟨s.data.map Char.toLower⟩

/-- The state of `class ImageProcessor`: the fields set up by
`__init__`.  `history` is a Python list of image arrays (an element is
`Option PB` because `current_image` itself is optional). -/
structure ImageProcessor where
  original_image : Option PB
  current_image : Option PB
  image_path : Option String
  history : List (Option PB)
  history_index : Int

/-- The state made by `__init__` called without a path. -/
def ImageProcessor.init : ImageProcessor :=
  { original_image := none, current_image := none, image_path := none,
    history := [], history_index := -1 }

/-- Method `load_image`: the decode result of `cv2.imread` (after BGR→RGB) is
passed in as `img`, `none` meaning decode failure.  On success the
original and current buffers are replaced, the path recorded, and the
history cleared. -/
def load_image (img : Option PB) (path : String) (s : ImageProcessor) :
    Bool × ImageProcessor :=
  match img with
  | none => (false, s)
  | some im =>
    (true, { original_image := some im, current_image := some im,
             image_path := some path, history := [], history_index := -1 })

/-- The state after successfully loading buffer `b` from `path`. -/
def loaded (b : PB) (path : String) : ImageProcessor :=
  (load_image (some b) path ImageProcessor.init).2

/-- Method `_save_to_history`: truncate the list to `history[:history_index+1]`,
append a deep copy of the current image, and advance the index.
(`history_index + 1` is never negative in reachable states, so Python's
slice coincides with `List.take`.) -/
def save_to_history (s : ImageProcessor) : ImageProcessor :=
  { s with
    history := s.history.take (s.history_index + 1).toNat ++ [s.current_image],
    history_index := s.history_index + 1 }

/-- Method `undo`: if `history_index > 0`, decrement it and load the snapshot at
the new index into `current_image`; otherwise return `False` and change
nothing.  (`history[history_index]` is in range in every reachable state;
the out-of-range default `none` is never exercised.) -/
def undo (s : ImageProcessor) : Bool × ImageProcessor :=
  if 0 < s.history_index then
    (true, { s with
      history_index := s.history_index - 1,
      current_image := s.history.getD (s.history_index - 1).toNat none })
  else (false, s)

/-- Method `redo`: if `history_index < len(history) - 1`, increment it and load
the snapshot at the new index into `current_image`; otherwise return
`False` and change nothing. -/
def redo (s : ImageProcessor) : Bool × ImageProcessor :=
  if s.history_index < (s.history.length : Int) - 1 then
    (true, { s with
      history_index := s.history_index + 1,
      current_image := s.history.getD (s.history_index + 1).toNat none })
  else (false, s)

/-- Method `convert_grayscale`: requires a loaded image, pushes the pre-state,
then replaces the current image with the grayscale round trip. -/
def convert_grayscale (s : ImageProcessor) : Bool × ImageProcessor :=
  match s.current_image with
  | none => (false, s)
  | some b =>
    (true, { save_to_history s with current_image := some (rgb2gray2rgb b) })

/-- Method `apply_blur`: requires a loaded image, pushes the pre-state, coerces
the intensity to an odd kernel size, and applies the Gaussian blur. -/
def apply_blur (intensity : Int) (s : ImageProcessor) : Bool × ImageProcessor :=
  match s.current_image with
  | none => (false, s)
  | some b =>
    (true, { save_to_history s with
             current_image := some (cv2_GaussianBlur b (blur_kernel_size intensity)) })

/-- Method `rotate_image`: requires a loaded image, pushes the pre-state, then
dispatches on the angle; an angle outside {90, 180, 270} returns `False`
— but only after `_save_to_history` has already run. -/
def rotate_image (angle : Int) (s : ImageProcessor) : Bool × ImageProcessor :=
  match s.current_image with
  | none => (false, s)
  | some b =>
    let s2 := save_to_history s
    if angle = 90 then (true, { s2 with current_image := some (cv2_rotate_ccw b) })
    else if angle = 180 then (true, { s2 with current_image := some (cv2_rotate_180 b) })
    else if angle = 270 then (true, { s2 with current_image := some (cv2_rotate_cw b) })
    else (false, s2)

/-- Method `flip_image`: requires a loaded image, pushes the pre-state, then
dispatches on `direction.lower()`; an unknown direction returns `False`
— but only after `_save_to_history` has already run. -/
def flip_image (direction : String) (s : ImageProcessor) : Bool × ImageProcessor :=
  match s.current_image with
  | none => (false, s)
  | some b =>
    let s2 := save_to_history s
    if str_lower direction = "horizontal" then
      (true, { s2 with current_image := some (cv2_flip_h b) })
    else if str_lower direction = "vertical" then
      (true, { s2 with current_image := some (cv2_flip_v b) })
    else (false, s2)

/-- Method `resize_image`: requires a loaded image, pushes the pre-state, then
calls `cv2.resize(current, (width, height))` with no validation of its
own.  `Except.error` models the uncaught `cv2.error` escaping the method;
it carries the processor state as mutated at the moment of the raise. -/
def resize_image (width height : Int) (s : ImageProcessor) :
    Except ImageProcessor (Bool × ImageProcessor) :=
  match s.current_image with
  | none => .ok (false, s)
  | some b =>
    let s2 := save_to_history s
    match cv2_resize b width height with
    | none => .error s2
    | some b2 => .ok (true, { s2 with current_image := some b2 })

/-- Total pixel observation: the sample at row `i`, column `j`, or black
when out of range.  Used to tell concrete buffers apart. -/
def pixAt (b : PB) (i j : ℕ) : Pix :=
  if hi : i < b.1 then
    if hj : j < b.2.1 then b.2.2 ⟨i, hi⟩ ⟨j, hj⟩ else (0, 0, 0)
  else (0, 0, 0)

/-- One successful mutating operation of the session.  Every mutating
method of `ImageProcessor` follows the same pattern on success: it
requires a loaded image, calls `_save_to_history`, then overwrites
`current_image` with the operator's output and returns `True`
(`mutStep_rotate_180`, `mutStep_flip`, `mutStep_grayscale` below certify
this against the modelled operators). -/
def MutStep (s s2 : ImageProcessor) : Prop :=
  s.current_image ≠ none ∧
  ∃ b : PB, s2 = { save_to_history s with current_image := some b }

/-- Iterated `MutStep`: `n` successful mutating operations in sequence. -/
def MutSteps : ℕ → ImageProcessor → ImageProcessor → Prop
  | 0, s, s2 => s2 = s
  | n + 1, s, s2 => ∃ t, MutSteps n s t ∧ MutStep t s2

/-- A concrete 1 × 2 test buffer with two distinct pixels. -/
def bTest : PB := ⟨1, 2, fun _ j => if j.val = 0 then (0, 0, 0) else (1, 1, 1)⟩

/-- A concrete 2 × 2 test buffer. -/
def bTest4 : PB := ⟨2, 2, fun i j => (i.val, j.val, 7)⟩

/-- A session that has just loaded the 1 × 2 test buffer. -/
def sTest : ImageProcessor := loaded bTest "test.png"

/-- A session that has just loaded the 2 × 2 test buffer. -/
def sTest4 : ImageProcessor := loaded bTest4 "test.png"

/-- Two successful edits (180° rotations) applied to the fresh session. -/
def sChain2 : ImageProcessor := (rotate_image 180 ((rotate_image 180 sTest).2)).2

/-- The session after undoing one of the two edits of `sChain2`. -/
def sUndo : ImageProcessor := (undo sChain2).2

/-- The session after a new edit on the undone session `sUndo`. -/
def sNewEdit : ImageProcessor := (rotate_image 180 sUndo).2

/- ------------------------------------------------------------------ -/
/- Helper lemmas about the buffer operators.                          -/
/- ------------------------------------------------------------------ -/

theorem flip_h_involutive (b : PB) : cv2_flip_h (cv2_flip_h b) = b := by
  obtain ⟨h, w, M⟩ := b
  show (⟨h, w, fun i j => M i j.rev.rev⟩ : PB) = ⟨h, w, M⟩
  have hM : (fun (i : Fin h) (j : Fin w) => M i j.rev.rev) = M := by
    funext i j
    rw [Fin.rev_rev]
  rw [hM]

theorem rotate_180_involutive (b : PB) :
    cv2_rotate_180 (cv2_rotate_180 b) = b := by
  obtain ⟨h, w, M⟩ := b
  show (⟨h, w, fun i j => M i.rev.rev j.rev.rev⟩ : PB) = ⟨h, w, M⟩
  have hM : (fun (i : Fin h) (j : Fin w) => M i.rev.rev j.rev.rev) = M := by
    funext i j
    rw [Fin.rev_rev, Fin.rev_rev]
  rw [hM]

theorem rotate_ccw_fourth (b : PB) :
    cv2_rotate_ccw (cv2_rotate_ccw (cv2_rotate_ccw (cv2_rotate_ccw b))) = b := by
  obtain ⟨h, w, M⟩ := b
  show (⟨h, w, fun i j => M i.rev.rev j.rev.rev⟩ : PB) = ⟨h, w, M⟩
  have hM : (fun (i : Fin h) (j : Fin w) => M i.rev.rev j.rev.rev) = M := by
    funext i j
    rw [Fin.rev_rev, Fin.rev_rev]
  rw [hM]

theorem gray8_replicate (y : ℕ) : gray8 (y, y, y) = y := by
  show (4899 * y + 9617 * y + 1868 * y + 8192) / 16384 = y
  omega

theorem rgb2gray2rgb_idem (b : PB) :
    rgb2gray2rgb (rgb2gray2rgb b) = rgb2gray2rgb b := by
  obtain ⟨h, w, M⟩ := b
  show (⟨h, w, fun i j =>
      (gray8 (gray8 (M i j), gray8 (M i j), gray8 (M i j)),
       gray8 (gray8 (M i j), gray8 (M i j), gray8 (M i j)),
       gray8 (gray8 (M i j), gray8 (M i j), gray8 (M i j)))⟩ : PB) =
    ⟨h, w, fun i j => (gray8 (M i j), gray8 (M i j), gray8 (M i j))⟩
  have hM : (fun (i : Fin h) (j : Fin w) =>
      (gray8 (gray8 (M i j), gray8 (M i j), gray8 (M i j)),
       gray8 (gray8 (M i j), gray8 (M i j), gray8 (M i j)),
       gray8 (gray8 (M i j), gray8 (M i j), gray8 (M i j)))) =
      (fun (i : Fin h) (j : Fin w) => (gray8 (M i j), gray8 (M i j), gray8 (M i j))) := by
    funext i j
    rw [gray8_replicate]
  rw [hM]

/- ------------------------------------------------------------------ -/
/- Helper lemmas about the session operations.                        -/
/- ------------------------------------------------------------------ -/

theorem flip_image_h_current (s : ImageProcessor) (b : PB)
    (hb : s.current_image = some b) :
    (flip_image "horizontal" s).2.current_image = some (cv2_flip_h b) := by
  unfold flip_image
  rw [hb]
  rfl

theorem rotate_image_90_current (s : ImageProcessor) (b : PB)
    (hb : s.current_image = some b) :
    (rotate_image 90 s).2.current_image = some (cv2_rotate_ccw b) := by
  unfold rotate_image
  rw [hb]
  rfl

theorem rotate_image_180_current (s : ImageProcessor) (b : PB)
    (hb : s.current_image = some b) :
    (rotate_image 180 s).2.current_image = some (cv2_rotate_180 b) := by
  unfold rotate_image
  rw [hb]
  rfl

theorem convert_grayscale_current (s : ImageProcessor) (b : PB)
    (hb : s.current_image = some b) :
    (convert_grayscale s).2.current_image = some (rgb2gray2rgb b) := by
  unfold convert_grayscale
  rw [hb]

theorem mutStep_rotate_180 (s : ImageProcessor) (b : PB)
    (hb : s.current_image = some b) :
    (rotate_image 180 s).1 = true ∧ MutStep s (rotate_image 180 s).2 := by
  unfold rotate_image
  rw [hb]
  exact ⟨rfl, fun hn => by rw [hb] at hn; exact Option.noConfusion hn,
    cv2_rotate_180 b, rfl⟩

theorem mutStep_convert_grayscale (s : ImageProcessor) (b : PB)
    (hb : s.current_image = some b) :
    (convert_grayscale s).1 = true ∧ MutStep s (convert_grayscale s).2 := by
  unfold convert_grayscale
  rw [hb]
  exact ⟨rfl, fun hn => by rw [hb] at hn; exact Option.noConfusion hn,
    rgb2gray2rgb b, rfl⟩

theorem mutStep_history_index (s s2 : ImageProcessor) (h : MutStep s s2) :
    s2.history_index = s.history_index + 1 := by
  obtain ⟨-, b, rfl⟩ := h
  rfl

theorem mutStep_history (s s2 : ImageProcessor) (h : MutStep s s2) :
    s2.history = s.history.take (s.history_index + 1).toNat ++ [s.current_image] := by
  obtain ⟨-, b, rfl⟩ := h
  rfl

theorem mutSteps_shape (b : PB) (path : String) :
    ∀ (n : ℕ) (s : ImageProcessor), MutSteps n (loaded b path) s →
      s.history_index = (n : Int) - 1 ∧ s.history.length = n ∧
      s.current_image ≠ none := by
  intro n
  induction n with
  | zero =>
    intro s hs
    have hs2 : s = loaded b path := hs
    subst hs2
    exact ⟨rfl, rfl, fun hn => Option.noConfusion hn⟩
  | succ n ih =>
    intro s hs
    obtain ⟨t, ht, hstep⟩ := hs
    obtain ⟨h1, h2, h3⟩ := ih t ht
    obtain ⟨hc, b2, rfl⟩ := hstep
    refine ⟨?_, ?_, fun hn => Option.noConfusion hn⟩
    · show t.history_index + 1 = ((n : Int) + 1) - 1
      omega
    · show (t.history.take (t.history_index + 1).toNat ++ [t.current_image]).length = n + 1
      rw [List.length_append, List.length_take]
      have he : (t.history_index + 1).toNat = n := by omega
      rw [he, h2]
      simp

theorem redo_after_mutStep (t s3 : ImageProcessor) (hstep : MutStep t s3)
    (hlo : -1 ≤ t.history_index)
    (hhi : t.history_index ≤ (t.history.length : Int) - 1) :
    redo s3 = (false, s3) := by
  have hidx : s3.history_index = t.history_index + 1 :=
    mutStep_history_index t s3 hstep
  have hlen : (s3.history.length : Int) = t.history_index + 2 := by
    have h1 : (t.history_index + 1).toNat ≤ t.history.length := by omega
    rw [mutStep_history t s3 hstep, List.length_append, List.length_take,
      List.length_singleton, Nat.min_eq_left h1]
    omega
  unfold redo
  rw [if_neg (by omega)]

/- ------------------------------------------------------------------ -/
/- Claim theorems.                                                    -/
/- ------------------------------------------------------------------ -/

/-- C1, counterexample: as stated the claim is false — on a freshly
loaded session, `rotate_image 45` does return failure, but the history
depth changes from 0 to 1, because `_save_to_history` runs before the
angle is validated. -/
theorem C1_counterexample_rotate_45_pushes_history :
    (rotate_image 45 sTest).1 = false ∧
    (rotate_image 45 sTest).2.history.length ≠ sTest.history.length :=
  ⟨rfl, by decide⟩

/-- C1 (amended): calling `rotate_image` with an angle outside
{90, 180, 270} or `flip_image` with an unknown direction reports failure
and leaves the current buffer unchanged, but the history push is NOT
rolled back: the result state is exactly `save_to_history` of the input
state, so the cursor advances and a snapshot of the unchanged current
buffer is appended (the push and the buffer swap are not atomic). -/
theorem C1_invalid_params_fail_after_push (s : ImageProcessor) (b : PB)
    (hb : s.current_image = some b) (angle : Int)
    (ha : ¬(angle = 90 ∨ angle = 180 ∨ angle = 270))
    (dir : String)
    (hd : ¬(str_lower dir = "horizontal" ∨ str_lower dir = "vertical")) :
    rotate_image angle s = (false, save_to_history s) ∧
    flip_image dir s = (false, save_to_history s) ∧
    (save_to_history s).current_image = s.current_image ∧
    (save_to_history s).history_index = s.history_index + 1 := by
  push_neg at ha hd
  refine ⟨?_, ?_, rfl, rfl⟩
  · unfold rotate_image
    rw [hb]
    show (if angle = 90 then _ else if angle = 180 then _
          else if angle = 270 then _ else (false, save_to_history s)) = _
    rw [if_neg ha.1, if_neg ha.2.1, if_neg ha.2.2]
  · unfold flip_image
    rw [hb]
    show (if str_lower dir = "horizontal" then _
          else if str_lower dir = "vertical" then _
          else (false, save_to_history s)) = _
    rw [if_neg hd.1, if_neg hd.2]

/-- C1, witness for the amended theorem at a concrete input:
`rotate_image 45` and `flip_image "diagonal"` on the fresh test
session. -/
theorem C1_invalid_params_witness :
    rotate_image 45 sTest = (false, save_to_history sTest) ∧
    flip_image "diagonal" sTest = (false, save_to_history sTest) := by
  have h := C1_invalid_params_fail_after_push sTest bTest rfl 45 (by decide)
    "diagonal" (by decide)
  exact ⟨h.1, h.2.1⟩

/-- C2: the undo/redo round trip claimed by the spec fails on the code.
`_save_to_history` stores only the pre-operation snapshot, so after one
successful edit (N = 1) `history_index` is 0 and `undo()` returns
`False` without restoring the load-time buffer: the current buffer stays
at the edited state, which differs from the loaded one. -/
theorem C2_roundtrip_fails_after_single_edit :
    (flip_image "horizontal" sTest).1 = true ∧
    undo (flip_image "horizontal" sTest).2 =
      (false, (flip_image "horizontal" sTest).2) ∧
    (flip_image "horizontal" sTest).2.current_image ≠ some bTest := by
  refine ⟨rfl, rfl, fun hEq => ?_⟩
  have hEq2 : some (cv2_flip_h bTest) = some bTest := hEq
  have h2 : cv2_flip_h bTest = bTest := Option.some.inj hEq2
  have h3 : pixAt (cv2_flip_h bTest) 0 0 = pixAt bTest 0 0 := by rw [h2]
  exact absurd h3 (by decide)

/-- C3: the claimed validation does not exist in the code.  On a session
with a loaded 2 × 2 image, `resize_image 0 100` first pushes a history
snapshot and then lets `cv2.resize` raise on the empty target size (no
`InvalidParameterError`-style clean failure): the escaping exception
leaves the session with the current buffer unchanged but the history
depth increased by one. -/
theorem C3_resize_zero_raises_after_push :
    resize_image 0 100 sTest4 = .error (save_to_history sTest4) ∧
    (save_to_history sTest4).history.length = sTest4.history.length + 1 ∧
    (save_to_history sTest4).current_image = sTest4.current_image :=
  ⟨rfl, rfl, rfl⟩

/-- C4: branch discard.  Starting from a freshly loaded session, after
N ≥ 2 successful mutating operations, one `undo()` (which succeeds), and
one further successful mutating operation, `redo()` returns failure and
leaves the state unchanged: the discarded future is unreachable. -/
theorem C4_branch_discard (b : PB) (path : String) (N : ℕ) (hN : 2 ≤ N)
    (s1 : ImageProcessor) (hsteps : MutSteps N (loaded b path) s1) :
    (undo s1).1 = true ∧
    ∀ s3, MutStep (undo s1).2 s3 → redo s3 = (false, s3) := by
  obtain ⟨h1, h2, h3⟩ := mutSteps_shape b path N s1 hsteps
  have hpos : 0 < s1.history_index := by omega
  have hu1 : (undo s1).2.history_index = s1.history_index - 1 := by
    unfold undo
    rw [if_pos hpos]
  have hu2 : (undo s1).2.history = s1.history := by
    unfold undo
    rw [if_pos hpos]
  refine ⟨?_, ?_⟩
  · unfold undo
    rw [if_pos hpos]
  · intro s3 hstep
    refine redo_after_mutStep _ s3 hstep (by omega) ?_
    rw [hu1, hu2, h2]
    omega

/-- C4, witness: two 180° rotations on the fresh test session, one undo,
one further 180° rotation; `redo` then fails and changes nothing. -/
theorem C4_branch_discard_witness :
    (undo sChain2).1 = true ∧ redo sNewEdit = (false, sNewEdit) := by
  have hsteps : MutSteps 2 (loaded bTest "test.png") sChain2 :=
    ⟨(rotate_image 180 sTest).2, ⟨sTest, rfl, (mutStep_rotate_180 sTest bTest rfl).2⟩,
      (mutStep_rotate_180 (rotate_image 180 sTest).2 (cv2_rotate_180 bTest) rfl).2⟩
  have h := C4_branch_discard bTest "test.png" 2 (by omega) sChain2 hsteps
  exact ⟨h.1, h.2 sNewEdit (mutStep_rotate_180 sUndo bTest rfl).2⟩

/-- C5: `undo` succeeds exactly when the cursor is positive; on success
it decrements the cursor, keeps the history sequence, and sets the
current buffer to the snapshot now at the cursor; with cursor ≤ 0 it
returns failure and changes nothing. -/
theorem C5_undo_semantics (s : ImageProcessor) :
    ((undo s).1 = true ↔ 0 < s.history_index) ∧
    (0 < s.history_index →
      (undo s).2.history_index = s.history_index - 1 ∧
      (undo s).2.history = s.history ∧
      (undo s).2.current_image =
        s.history.getD (s.history_index - 1).toNat none) ∧
    (s.history_index ≤ 0 → undo s = (false, s)) := by
  by_cases h : 0 < s.history_index
  · unfold undo
    rw [if_pos h]
    exact ⟨⟨fun _ => h, fun _ => rfl⟩, fun _ => ⟨rfl, rfl, rfl⟩,
      fun hle => absurd h (by omega)⟩
  · unfold undo
    rw [if_neg h]
    exact ⟨⟨fun hh => Bool.noConfusion hh, fun hh => absurd hh h⟩,
      fun hh => absurd hh h, fun _ => rfl⟩

/-- C5, witness: on the two-edit session the cursor is 1, so `undo`
succeeds and moves the cursor to 0; on the fresh session the cursor is
-1, so `undo` fails and changes nothing. -/
theorem C5_undo_semantics_witness :
    (undo sChain2).1 = true ∧ (undo sChain2).2.history_index = 0 ∧
    undo sTest = (false, sTest) := by
  have h2 := C5_undo_semantics sChain2
  have h0 := C5_undo_semantics sTest
  have hpos : (0 : Int) < sChain2.history_index := by decide
  refine ⟨h2.1.mpr hpos, ?_, h0.2.2 (by decide)⟩
  rw [(h2.2.1 hpos).1]
  decide

/-- C7: inverse pairs on the current buffer — flipping horizontally
twice, rotating by 90° (counter-clockwise, `ROTATE_90_COUNTERCLOCKWISE`)
four times, or rotating by 180° twice restores the loaded buffer
exactly. -/
theorem C7_inverse_pairs (s : ImageProcessor) (b : PB)
    (hb : s.current_image = some b) :
    (flip_image "horizontal" ((flip_image "horizontal" s).2)).2.current_image
      = some b ∧
    (rotate_image 90 ((rotate_image 90 ((rotate_image 90
      ((rotate_image 90 s).2)).2)).2)).2.current_image = some b ∧
    (rotate_image 180 ((rotate_image 180 s).2)).2.current_image = some b := by
  refine ⟨?_, ?_, ?_⟩
  · have e1 := flip_image_h_current s b hb
    have e2 := flip_image_h_current _ _ e1
    rw [flip_h_involutive] at e2
    exact e2
  · have e1 := rotate_image_90_current s b hb
    have e2 := rotate_image_90_current _ _ e1
    have e3 := rotate_image_90_current _ _ e2
    have e4 := rotate_image_90_current _ _ e3
    rw [rotate_ccw_fourth] at e4
    exact e4
  · have e1 := rotate_image_180_current s b hb
    have e2 := rotate_image_180_current _ _ e1
    rw [rotate_180_involutive] at e2
    exact e2

/-- C7, witness: the inverse pairs evaluated on the fresh test
session. -/
theorem C7_inverse_pairs_witness :
    (flip_image "horizontal" ((flip_image "horizontal" sTest).2)).2.current_image
      = some bTest ∧
    (rotate_image 90 ((rotate_image 90 ((rotate_image 90
      ((rotate_image 90 sTest).2)).2)).2)).2.current_image = some bTest ∧
    (rotate_image 180 ((rotate_image 180 sTest).2)).2.current_image = some bTest :=
  C7_inverse_pairs sTest bTest rfl

/-- C8: for every integer intensity in [1, 31], the kernel size used by
`apply_blur` is odd, at least 1, and equals the intensity when it is odd
and the intensity plus one when it is even. -/
theorem C8_blur_kernel_odd (i : Int) (h1 : 1 ≤ i) (h31 : i ≤ 31) :
    blur_kernel_size i % 2 = 1 ∧ 1 ≤ blur_kernel_size i ∧
    blur_kernel_size i = (if i % 2 = 1 then i else i + 1) := by
  unfold blur_kernel_size
  split_ifs with h
  · rw [max_eq_right (by omega : (1 : Int) ≤ i)]
    exact ⟨h, h1, rfl⟩
  · rw [max_eq_right (by omega : (1 : Int) ≤ i + 1)]
    refine ⟨?_, by omega, rfl⟩
    omega

/-- C8, witness: intensity 4 (even) is bumped to kernel size 5. -/
theorem C8_blur_kernel_odd_witness :
    blur_kernel_size 4 % 2 = 1 ∧ 1 ≤ blur_kernel_size 4 := by
  have h := C8_blur_kernel_odd 4 (by decide) (by decide)
  exact ⟨h.1, h.2.1⟩

/-- C9: applying `convert_grayscale` twice yields the same current
buffer as applying it once (the fixed-point luminance coefficients sum
to 2^14, so grayscale is exactly idempotent). -/
theorem C9_grayscale_idempotent (s : ImageProcessor) (b : PB)
    (hb : s.current_image = some b) :
    (convert_grayscale ((convert_grayscale s).2)).2.current_image =
      (convert_grayscale s).2.current_image := by
  have e1 := convert_grayscale_current s b hb
  have e2 := convert_grayscale_current _ _ e1
  rw [e1, e2, rgb2gray2rgb_idem]

/-- C9, witness: grayscale idempotence on the 2 × 2 test session. -/
theorem C9_grayscale_idempotent_witness :
    (convert_grayscale ((convert_grayscale sTest4).2)).2.current_image =
      (convert_grayscale sTest4).2.current_image :=
  C9_grayscale_idempotent sTest4 bTest4 rfl

/-- C10: flip direction matching is case-insensitive — for every
direction string whose lowercase form is "horizontal" or "vertical",
`flip_image` succeeds and produces the same current buffer as the
all-lowercase call. -/
theorem C10_flip_case_insensitive (s : ImageProcessor) (b : PB)
    (hb : s.current_image = some b) (dir : String)
    (hd : str_lower dir = "horizontal" ∨ str_lower dir = "vertical") :
    (flip_image dir s).1 = true ∧
    (flip_image dir s).2.current_image =
      (flip_image (str_lower dir) s).2.current_image := by
  rcases hd with h | h <;> rw [h] <;> unfold flip_image <;> rw [hb, h] <;>
    exact ⟨rfl, rfl⟩

/-- C10, witness: "HORIZONTAL" behaves as "horizontal" on the fresh test
session. -/
theorem C10_flip_case_insensitive_witness :
    (flip_image "HORIZONTAL" sTest).1 = true ∧
    (flip_image "HORIZONTAL" sTest).2.current_image =
      (flip_image (str_lower "HORIZONTAL") sTest).2.current_image :=
  C10_flip_case_insensitive sTest bTest rfl "HORIZONTAL" (Or.inl (by decide))

end ImageEditor
